import Mathlib

/-!
# structuredhttp: request builder and response wrapper

A shallow embedding of `request.go` and `response.go`.

Conventions of the embedding

* A Go `string` is an immutable byte sequence, so it is a `List Byte`; the
  literals of the source are written `go "..."` (their UTF-8 bytes).
* A Go `map[string]string` is a finite map with unique keys (`AList`).  The
  `Headers` map of a `Request` is the initialised map the package constructors
  seed; the nil map is not represented.
* A pointer that may be nil (`*time.Duration`, `*error`) and an interface that
  may be nil (`io.Reader`) are an `Option`.
* A pointer receiver that is mutated and returned becomes a function from the
  old state to the new state.
* A Go result `(v, err)` that is either `(zero, err)` or `(v, nil)` is an
  `Except GoError`; `ioutil.ReadAll`, which returns the bytes read so far
  together with the error, keeps the pair.
* Functions of the standard library that the package calls (`json.Marshal`,
  `json.Unmarshal`, `url.Values.Encode`, `http.NewRequest`, `Client.Do`) are
  parameters.
-/

namespace structuredhttp

/-! ## Go values -/

abbrev Byte := UInt8

/-- Go `string`: a byte sequence. -/
abbrev GoString := List Byte

/-- The bytes of a source literal. -/
def go (s : String) : GoString := s.toUTF8.data.toList

/-- Go `strconv.Itoa`: the decimal rendering of an integer. -/
def Itoa (i : Int) : GoString := go (toString i)

/-- Go `error` values, identified by their message. -/
structure GoError where
  msg : GoString
deriving DecidableEq

/-- Go `errors.New`. -/
def errorsNew (text : GoString) : GoError := ⟨text⟩

/-- Results `(v, err)` can be compared when values and errors can. -/
instance instDecidableEqExcept {ε α : Type} [DecidableEq ε] [DecidableEq α] :
    DecidableEq (Except ε α)
  | .ok a, .ok b => if h : a = b then isTrue (by rw [h]) else isFalse (fun h2 => h (by cases h2; rfl))
  | .error a, .error b =>
    if h : a = b then isTrue (by rw [h]) else isFalse (fun h2 => h (by cases h2; rfl))
  | .ok _, .error _ => isFalse (fun h => by cases h)
  | .error _, .ok _ => isFalse (fun h => by cases h)

/-- Go `time.Duration` (nanoseconds). -/
abbrev Duration := Int

/-- An `io.Reader` (also an `io.ReadCloser`), identified with what is left to read from it:
the bytes it yields up to the end of the stream or up to the next read error (`data`), how
that stretch ends (`err`: `none` for `io.EOF`, `some e` for a read error `e`), and, for a
stream that goes on after an error, the stretches that follow, each with its own end
(`later`). An error with nothing after it is permanent: every later read fails with it. -/
structure Reader where
  data : List Byte
  err : Option GoError
  later : List (List Byte × Option GoError)
deriving DecidableEq

/-- Go `bytes.NewReader`. -/
def bytesNewReader (b : List Byte) : Reader := ⟨b, none, []⟩

/-- Go `strings.NewReader`. -/
def stringsNewReader (s : GoString) : Reader := ⟨s, none, []⟩

/-- A `*bytes.Buffer` used as an `io.Reader`: it yields its unread bytes. -/
def bufferReader (unread : List Byte) : Reader := ⟨unread, none, []⟩

/-- Go `ioutil.ReadAll`: reads until `io.EOF` or an error and returns what was read and the
error (`io.EOF` is reported as no error). After `io.EOF` the stream is exhausted; after a
permanent error it keeps failing; after a transient error it goes on with the next stretch. -/
def ReadAll (s : Reader) : (List Byte × Option GoError) × Reader :=
  ((s.data, s.err),
    match s.err, s.later with
    | none, _ => ⟨[], none, []⟩
    | some e, [] => ⟨[], some e, []⟩
    | some _, next :: rest => ⟨next.1, next.2, rest⟩)

/-- Go `map[string]string`. -/
abbrev HeaderMap := AList (fun _ : GoString => GoString)

/-- Go `url.Values`, a `map[string][]string`. -/
abbrev Values := AList (fun _ : GoString => List GoString)

/-! ## request.go -/

/-- Request defines the request that will be ran. -/
structure Request where
  URL : GoString
  Method : GoString
  Headers : HeaderMap
  CurrentTimeout : Option Duration
  CurrentReader : Option Reader
  Error : Option GoError
deriving DecidableEq

namespace Request

/-- Header sets a header. -/
def Header (r : Request) (key value : GoString) : Request :=
  if r.Error ≠ none then r
  else { r with Headers := r.Headers.insert key value }

/-- Timeout sets a timeout. 0 is infinite. -/
def Timeout (r : Request) (Value : Duration) : Request :=
  if r.Error ≠ none then r
  else { r with CurrentTimeout := some Value }

/-- Bytes sets the data to the bytes specified. -/
def Bytes (r : Request) (Data : List Byte) : Request :=
  if r.Error ≠ none then r
  else
    let Buffer := bytesNewReader Data
    { r with
      Headers := r.Headers.insert (go "Content-Length") (Itoa Data.length)
      CurrentReader := some Buffer }

/-- JSON sets the data to the JSON specified. `Marshal` is `json.Marshal` on the values that
can be passed as `interface{}`. -/
def JSON {α : Type} (Marshal : α → Except GoError (List Byte)) (r : Request) (Data : α) :
    Request :=
  if r.Error ≠ none then r
  else
    match Marshal Data with
    | .error err => { r with Error := some err }
    | .ok JSONData =>
      let r1 : Request :=
        { r with Headers := r.Headers.insert (go "Content-Length") (Itoa JSONData.length) }
      let r2 : Request :=
        { r1 with Headers := r1.Headers.insert (go "Content-Type") (go "application/json") }
      r2.Bytes JSONData

/-- Reader sets the IO reader to the one specified (a nil interface is `none`). -/
def Reader (r : Request) (Data : Option structuredhttp.Reader) : Request :=
  if r.Error ≠ none then r
  else { r with CurrentReader := Data }

/-- URLEncodedForm sets the data to a URL encoded form. `Encode` is `url.Values.Encode`. -/
def URLEncodedForm (Encode : Values → GoString) (r : Request) (Data : Values) : Request :=
  if r.Error ≠ none then r
  else
    let Encoded := Encode Data
    let r1 : Request :=
      { r with
        Headers := r.Headers.insert (go "Content-Type") (go "application/x-www-form-urlencoded") }
    { r1 with
      Headers := r1.Headers.insert (go "Content-Length") (Itoa Encoded.length)
      CurrentReader := some (stringsNewReader Encoded) }

/-- MultipartForm sets the data to a multipart form. `Buffer` is the unread content of the
`*bytes.Buffer`. -/
def MultipartForm (r : Request) (Buffer : List Byte) (ContentType : GoString) : Request :=
  if r.Error ≠ none then r
  else
    { r with
      Headers := r.Headers.insert (go "Content-Type") ContentType
      CurrentReader := some (bufferReader Buffer) }

/-- Plugin allows for third party functions to be chained into the request. The function
mutates the request it is given and whatever else it can reach: `σ` is the state outside
the request, so a call that is not made leaves `w` as it was. -/
def Plugin {σ : Type} (r : Request) (Function : Request → σ → Request × σ) (w : σ) :
    Request × σ :=
  if r.Error ≠ none then (r, w)
  else Function r w

end Request

/-- One builder call with its arguments. -/
inductive Call (α σ : Type) where
  | Header (key value : GoString)
  | Timeout (Value : Duration)
  | Bytes (Data : List Byte)
  | JSON (Data : α)
  | Reader (Data : Option Reader)
  | URLEncodedForm (Data : Values)
  | MultipartForm (Buffer : List Byte) (ContentType : GoString)
  | Plugin (Function : Request → σ → Request × σ)

/-- Makes one builder call on the request. -/
def Call.apply {α σ : Type} (Marshal : α → Except GoError (List Byte))
    (Encode : Values → GoString) (c : Call α σ) (s : Request × σ) : Request × σ :=
  match c with
  | .Header key value => (s.1.Header key value, s.2)
  | .Timeout Value => (s.1.Timeout Value, s.2)
  | .Bytes Data => (s.1.Bytes Data, s.2)
  | .JSON Data => (s.1.JSON Marshal Data, s.2)
  | .Reader Data => (s.1.Reader Data, s.2)
  | .URLEncodedForm Data => (s.1.URLEncodedForm Encode Data, s.2)
  | .MultipartForm Buffer ContentType => (s.1.MultipartForm Buffer ContentType, s.2)
  | .Plugin Function => s.1.Plugin Function s.2

/-- Makes the builder calls of a chain, in call order. -/
def applyCalls {α σ : Type} (Marshal : α → Except GoError (List Byte))
    (Encode : Values → GoString) (calls : List (Call α σ)) (s : Request × σ) : Request × σ :=
  calls.foldl (fun st c => c.apply Marshal Encode st) s

/-! ## response.go -/

/-- The fields of `http.Response` that the package reads. -/
structure RawResponse where
  StatusCode : Int
  Body : Reader
deriving DecidableEq

/-- Response defines the higher level HTTP response. -/
structure Response where
  RawResponse : RawResponse
deriving DecidableEq

/-- What is used of IEEE-754 binary64 arithmetic in round-to-nearest mode (`float64(n)` and
`/` both round the exact result): rounding is monotone, and it is exact on the multiples
of 1/128 below 1024 in absolute value. -/
structure Float64 where
  round : ℚ → ℚ
  mono : ∀ x y : ℚ, x ≤ y → round x ≤ round y
  exact : ∀ n : ℤ, -131072 ≤ n → n ≤ 131072 → round ((n : ℚ) / 128) = (n : ℚ) / 128

/-- Arithmetic without rounding error is one such model. -/
def Float64.ideal : Float64 where
  round := fun x => x
  mono := fun _ _ h => h
  exact := fun _ _ _ => rfl

namespace Response

/-- Bytes gets the response as bytes. The second component is the wrapper after the call. -/
def Bytes (r : Response) : (List Byte × Option GoError) × Response :=
  let res := ReadAll r.RawResponse.Body
  (res.1, { r with RawResponse := { r.RawResponse with Body := res.2 } })

/-- JSON returns the result as a interface which can be converted how the user wishes.
`Unmarshal` is `json.Unmarshal` into an `interface{}`. -/
def JSON {β : Type} (Unmarshal : List Byte → Except GoError β) (r : Response) :
    Except GoError β × Response :=
  let res := r.Bytes
  match res.1.2 with
  | some err => (.error err, res.2)
  | none =>
    match Unmarshal res.1.1 with
    | .error err => (.error err, res.2)
    | .ok BasicInterface => (.ok BasicInterface, res.2)

/-- The `math.Floor(float64(StatusCode) / 100)` of `RaiseForStatus`. -/
def FirstDigitStatus (fl : Float64) (r : Response) : ℤ :=
  ⌊fl.round (fl.round (r.RawResponse.StatusCode : ℚ) / 100)⌋

/-- RaiseForStatus throws a error if the request is a 4XX/5XX. -/
def RaiseForStatus (fl : Float64) (r : Response) : Option GoError :=
  if r.FirstDigitStatus fl = 4 ∨ r.FirstDigitStatus fl = 5 then
    some (errorsNew (go "returned the status " ++ Itoa r.RawResponse.StatusCode))
  else none

/-- Text returns the status as a string. -/
def Text (r : Response) : Except GoError GoString × Response :=
  let res := r.Bytes
  match res.1.2 with
  | some err => (.error err, res.2)
  | none => (.ok res.1.1, res.2)

end Response

/-! ## Run -/

/-- The fields of `http.Request` that matter here. -/
structure RawRequest where
  Method : GoString
  URL : GoString
  Header : HeaderMap
  Body : Reader
deriving DecidableEq

/-- What `Run` does to the outside, in order. -/
inductive Event where
  | NewRequest (method url : GoString) (body : Reader)
  | Do (timeout : Duration) (request : RawRequest)
deriving DecidableEq

/-- The surroundings of `Run`: the package constant `DefaultTimeout`, `http.NewRequest`,
the key canonicalisation of `http.Header.Set`, the order in which `range` visits a map (any
order of its entries), and `Do` of an `http.Client` with the given `Timeout`. -/
structure Net where
  DefaultTimeout : Duration
  NewRequest : GoString → GoString → Reader → Except GoError RawRequest
  CanonicalHeaderKey : GoString → GoString
  rangeOrder : HeaderMap → List (GoString × GoString)
  rangeOrder_perm : ∀ m : HeaderMap,
    (rangeOrder m).Perm (m.entries.map fun kv => (kv.1, kv.2))
  Do : Duration → RawRequest → Except GoError RawResponse

/-- Go `http.Header.Set`: replaces the values of the canonical form of the key. -/
def RawRequest.HeaderSet (net : Net) (q : RawRequest) (k v : GoString) : RawRequest :=
  { q with Header := q.Header.insert (net.CanonicalHeaderKey k) v }

/-- Run executes the request. The second component lists what was done to the outside. -/
def Request.Run (net : Net) (r : Request) : Except GoError Response × List Event :=
  match r.Error with
  | some e => (.error e, [])
  | none =>
    let CurrentTimeout : Duration :=
      match r.CurrentTimeout with
      | none => net.DefaultTimeout
      | some v => v
    let Reader : structuredhttp.Reader :=
      match r.CurrentReader with
      | none => stringsNewReader (go "")
      | some rd => rd
    match net.NewRequest r.Method r.URL Reader with
    | .error err => (.error err, [.NewRequest r.Method r.URL Reader])
    | .ok RawRequest0 =>
      let RawRequest :=
        (net.rangeOrder r.Headers).foldl (fun q kv => q.HeaderSet net kv.1 kv.2) RawRequest0
      match net.Do CurrentTimeout RawRequest with
      | .error err =>
        (.error err, [.NewRequest r.Method r.URL Reader, .Do CurrentTimeout RawRequest])
      | .ok RawResponse =>
        (.ok { RawResponse := RawResponse },
          [.NewRequest r.Method r.URL Reader, .Do CurrentTimeout RawRequest])

/-- A fresh POST request, as the constructor of the package leaves it. -/
def sampleRequest : Request where
  URL := go "https://json-post.jakes.workers.dev/"
  Method := go "POST"
  Headers := ∅
  CurrentTimeout := none
  CurrentReader := none
  Error := none

/-- The error of a failed serialization. -/
def sampleError : GoError := errorsNew (go "json: unsupported type: chan int")

/-- A request whose deferred error is set. -/
def erroredRequest : Request := { sampleRequest with Error := some sampleError }

/-- Values handed to the sample encoder: a flat mapping of strings, listed by key, or a
channel or a function, which cannot be serialized. -/
inductive SampleValue where
  | stringMap (m : List (GoString × GoString))
  | channel
  | function
deriving DecidableEq

/-- The error of serializing a function. -/
def sampleFuncError : GoError := errorsNew (go "json: unsupported type: func()")

/-- A continuation byte of UTF-8 (0x80 to 0xBF). -/
def isCont (c : Byte) : Bool := 0x80 ≤ c.toNat && c.toNat ≤ 0xBF

/-- Go `utf8.DecodeRune`, as far as its size goes: the number of bytes of the well-formed
UTF-8 sequence at the head of the input, and 0 when the head is not well-formed (Go then
reports `RuneError` with size 1). -/
def runeLen : List Byte → Nat
  | [] => 0
  | c0 :: rest =>
    let b0 := c0.toNat
    if b0 < 0x80 then 1
    else if b0 < 0xC2 then 0
    else if b0 < 0xE0 then
      match rest with
      | c1 :: _ => if isCont c1 then 2 else 0
      | _ => 0
    else if b0 < 0xF0 then
      match rest with
      | c1 :: c2 :: _ =>
        let lo := if b0 = 0xE0 then 0xA0 else 0x80
        let hi := if b0 = 0xED then 0x9F else 0xBF
        if lo ≤ c1.toNat ∧ c1.toNat ≤ hi ∧ isCont c2 = true then 3 else 0
      | _ => 0
    else if b0 < 0xF5 then
      match rest with
      | c1 :: c2 :: c3 :: _ =>
        let lo := if b0 = 0xF0 then 0x90 else 0x80
        let hi := if b0 = 0xF4 then 0x8F else 0xBF
        if lo ≤ c1.toNat ∧ c1.toNat ≤ hi ∧ isCont c2 = true ∧ isCont c3 = true then 4 else 0
      | _ => 0
    else 0

/-- The lower-case hexadecimal digit of a number below 16. -/
def hexDigit (n : Nat) : Byte := if n < 10 then UInt8.ofNat (48 + n) else UInt8.ofNat (87 + n)

/-- The bytes of a string between its quotes, as `json.Marshal` writes them: quote and
backslash get a backslash; backspace, form feed, newline, carriage return and tab get their
letter; the other bytes below 0x20 and `<`, `>`, `&` become `\u00XX`; a byte that does not
start well-formed UTF-8 becomes `\ufffd`; U+2028 and U+2029 become `\u2028` and `\u2029`;
everything else is copied. `pending` counts the bytes of the current rune still to pass,
copied when `keep` is set and dropped otherwise. -/
def quoteBody (pending : Nat) (keep : Bool) : GoString → List Byte
  | [] => []
  | c :: s =>
    if pending > 0 then
      if keep then c :: quoteBody (pending - 1) keep s else quoteBody (pending - 1) keep s
    else if c = 34 ∨ c = 92 then 92 :: c :: quoteBody 0 true s
    else if c = 8 then 92 :: 98 :: quoteBody 0 true s
    else if c = 12 then 92 :: 102 :: quoteBody 0 true s
    else if c = 10 then 92 :: 110 :: quoteBody 0 true s
    else if c = 13 then 92 :: 114 :: quoteBody 0 true s
    else if c = 9 then 92 :: 116 :: quoteBody 0 true s
    else if c.toNat < 0x20 ∨ c = 60 ∨ c = 62 ∨ c = 38 then
      92 :: 117 :: 48 :: 48 :: hexDigit (c.toNat / 16) :: hexDigit (c.toNat % 16)
        :: quoteBody 0 true s
    else if c.toNat < 0x80 then c :: quoteBody 0 true s
    else if runeLen (c :: s) = 0 then 92 :: 117 :: 102 :: 102 :: 102 :: 100 :: quoteBody 0 true s
    else if c = 0xE2 ∧ s.take 2 = [0x80, 0xA8] then
      92 :: 117 :: 50 :: 48 :: 50 :: 56 :: quoteBody 2 false s
    else if c = 0xE2 ∧ s.take 2 = [0x80, 0xA9] then
      92 :: 117 :: 50 :: 48 :: 50 :: 57 :: quoteBody 2 false s
    else c :: quoteBody (runeLen (c :: s) - 1) true s

/-- A quoted string. -/
def quote (s : GoString) : List Byte := 34 :: quoteBody 0 true s ++ [34]

/-- The members of an object, separated by commas (44), key and value by a colon (58). -/
def sampleMembers : List (GoString × GoString) → List Byte
  | [] => []
  | [kv] => quote kv.1 ++ 58 :: quote kv.2
  | kv :: rest => quote kv.1 ++ 58 :: quote kv.2 ++ 44 :: sampleMembers rest

/-- A stand-in for `json.Marshal`: writes a flat mapping of strings as a compact JSON object
between braces (123, 125), its strings quoted as `json.Marshal` quotes them, and rejects
channels and functions. -/
def sampleMarshal : SampleValue → Except GoError (List Byte)
  | .stringMap m => .ok (123 :: sampleMembers m ++ [125])
  | .channel => .error sampleError
  | .function => .error sampleFuncError

/-- The value of a hexadecimal digit. -/
def hexVal (c : Byte) : Option Nat :=
  let n := c.toNat
  if 48 ≤ n ∧ n ≤ 57 then some (n - 48)
  else if 97 ≤ n ∧ n ≤ 102 then some (n - 87)
  else if 65 ≤ n ∧ n ≤ 70 then some (n - 55)
  else none

/-- The number written by four hexadecimal digits. -/
def hex4 (h1 h2 h3 h4 : Byte) : Option Nat :=
  match hexVal h1, hexVal h2, hexVal h3, hexVal h4 with
  | some a, some b, some c, some d => some (((a * 16 + b) * 16 + c) * 16 + d)
  | _, _, _, _ => none

/-- Go `utf8.EncodeRune`: the UTF-8 bytes of a code point; surrogates and values above
0x10FFFF are written as U+FFFD. -/
def encodeRune (r : Nat) : List Byte :=
  if r < 0x80 then [UInt8.ofNat r]
  else if r < 0x800 then [UInt8.ofNat (0xC0 + r / 64), UInt8.ofNat (0x80 + r % 64)]
  else if (0xD800 ≤ r ∧ r < 0xE000) ∨ 0x10FFFF < r then [0xEF, 0xBF, 0xBD]
  else if r < 0x10000 then
    [UInt8.ofNat (0xE0 + r / 4096), UInt8.ofNat (0x80 + r / 64 % 64), UInt8.ofNat (0x80 + r % 64)]
  else
    [UInt8.ofNat (0xF0 + r / 262144), UInt8.ofNat (0x80 + r / 4096 % 64),
      UInt8.ofNat (0x80 + r / 64 % 64), UInt8.ofNat (0x80 + r % 64)]

/-- Puts a byte in front of the string read so far. -/
def consRead (c : Byte) : Option (GoString × List Byte) → Option (GoString × List Byte)
  | none => none
  | some (s, rest) => some (c :: s, rest)

/-- Puts bytes in front of the string read so far. -/
def appendRead (bs : List Byte) : Option (GoString × List Byte) → Option (GoString × List Byte)
  | none => none
  | some (s, rest) => some (bs ++ s, rest)

/-- The byte a one-letter escape stands for. -/
def simpleEscape (d : Byte) : Option Byte :=
  if d = 34 ∨ d = 92 ∨ d = 47 then some d
  else if d = 98 then some 8
  else if d = 102 then some 12
  else if d = 110 then some 10
  else if d = 114 then some 13
  else if d = 116 then some 9
  else none

/-- Reads a string up to its closing quote, as `json.Unmarshal` does; gives the string and
the input after the quote. The first argument bounds the number of steps, and the length of
the input is enough. Escapes are resolved, `\uXXXX` to the UTF-8 bytes of the code
point (a surrogate pair to one code point, a lone surrogate to U+FFFD); a raw byte below
0x20 is an error; a byte that does not start well-formed UTF-8 is read as U+FFFD.
`pending` counts the bytes of the current rune still to copy. -/
def readString : Nat → Nat → List Byte → Option (GoString × List Byte)
  | 0, _, _ => none
  | _, _, [] => none
  | fuel + 1, pending, c :: rest =>
    if pending > 0 then consRead c (readString fuel (pending - 1) rest)
    else if c = 34 then some ([], rest)
    else if c = 92 then
      match rest with
      | [] => none
      | d :: rest1 =>
        if d = 117 then
          match rest1 with
          | h1 :: h2 :: h3 :: h4 :: rest2 =>
            match hex4 h1 h2 h3 h4 with
            | none => none
            | some rr =>
              if 0xD800 ≤ rr ∧ rr < 0xE000 then
                match rest2 with
                | b1 :: u1 :: g1 :: g2 :: g3 :: g4 :: rest3 =>
                  match (if b1 = 92 ∧ u1 = 117 then hex4 g1 g2 g3 g4 else none) with
                  | some rr1 =>
                    if rr < 0xDC00 ∧ 0xDC00 ≤ rr1 ∧ rr1 < 0xE000 then
                      appendRead (encodeRune ((rr - 0xD800) * 1024 + (rr1 - 0xDC00) + 0x10000))
                        (readString fuel 0 rest3)
                    else appendRead [0xEF, 0xBF, 0xBD] (readString fuel 0 rest2)
                  | none => appendRead [0xEF, 0xBF, 0xBD] (readString fuel 0 rest2)
                | _ => appendRead [0xEF, 0xBF, 0xBD] (readString fuel 0 rest2)
              else appendRead (encodeRune rr) (readString fuel 0 rest2)
          | _ => none
        else
          match simpleEscape d with
          | some x => consRead x (readString fuel 0 rest1)
          | none => none
    else if c.toNat < 0x20 then none
    else if c.toNat < 0x80 then consRead c (readString fuel 0 rest)
    else if runeLen (c :: rest) = 0 then appendRead [0xEF, 0xBF, 0xBD] (readString fuel 0 rest)
    else consRead c (readString fuel (runeLen (c :: rest) - 1) rest)

/-- Reads the members of an object up to the closing brace, which must end the input. -/
def readMembers : Nat → List Byte → Option (List (GoString × GoString))
  | 0, _ => none
  | fuel + 1, input =>
    match input with
    | [] => none
    | q :: rest =>
      if q ≠ 34 then none
      else
        match readString rest.length 0 rest with
        | none => none
        | some (key, rest1) =>
          match rest1 with
          | colon :: q2 :: rest2 =>
            if colon ≠ 58 ∨ q2 ≠ 34 then none
            else
              match readString rest2.length 0 rest2 with
              | none => none
              | some (value, rest3) =>
                match rest3 with
                | [] => none
                | c :: rest4 =>
                  if c = 125 then (if rest4 = [] then some [(key, value)] else none)
                  else if c = 44 then
                    (readMembers fuel rest4).map (fun m => (key, value) :: m)
                  else none
          | _ => none

/-- The error of the sample decoder. -/
def sampleSyntaxError : GoError := errorsNew (go "invalid character looking for beginning of value")

/-- A stand-in for `json.Unmarshal`: reads a compact JSON object whose values are strings,
and fails on any other input. -/
def sampleUnmarshal (b : List Byte) : Except GoError SampleValue :=
  match b with
  | [] => .error sampleSyntaxError
  | c :: rest =>
    if c ≠ 123 then .error sampleSyntaxError
    else if rest = [125] then .ok (.stringMap [])
    else
      match readMembers rest.length rest with
      | none => .error sampleSyntaxError
      | some m => .ok (.stringMap m)

/-- The pairs of a form, each key with each of its values, joined by `&` (38) and `=` (61). -/
def sampleFormPairs : List (GoString × GoString) → GoString
  | [] => []
  | [kv] => kv.1 ++ 61 :: kv.2
  | kv :: rest => kv.1 ++ 61 :: kv.2 ++ 38 :: sampleFormPairs rest

/-- A stand-in for `url.Values.Encode` on keys and values that need no escaping. -/
def sampleEncode (v : Values) : GoString :=
  sampleFormPairs (v.entries.flatMap fun kv => kv.2.map fun x => (kv.1, x))

/-- A transport whose server answers 200 with the body of the request. -/
def echoNet : Net where
  DefaultTimeout := 5000000000
  NewRequest := fun method url body =>
    if method = [] ∨ url = [] then .error (errorsNew (go "net/http: invalid request"))
    else .ok { Method := method, URL := url, Header := ∅, Body := body }
  CanonicalHeaderKey := fun k => k
  rangeOrder := fun m => m.entries.map fun kv => (kv.1, kv.2)
  rangeOrder_perm := fun _ => List.Perm.refl _
  Do := fun _ req => .ok { StatusCode := 200, Body := ⟨req.Body.data, none, []⟩ }

/-- A response with status 200 whose body is the single byte "x", which is not JSON. -/
def garbageResponse : Response :=
  { RawResponse := { StatusCode := 200, Body := ⟨go "x", none, []⟩ } }

/-- The mapping of the package test, `map[string]string` with "hello" set to "world". -/
def helloWorld : SampleValue := .stringMap [(go "hello", go "world")]

/-- A response with status 404 and an empty body. -/
def notFound : Response := { RawResponse := { StatusCode := 404, Body := ⟨[], none, []⟩ } }

/-- A plugin that sets a header and counts its invocations in the outside state. -/
def countingPlugin (r : Request) (n : Nat) : Request × Nat :=
  (r.Header (go "X-Plugin") (go "1"), n + 1)

/-- A plugin that calls JSON with a channel, which cannot be serialized, and counts its
invocations in the outside state. -/
def failingPlugin (r : Request) (n : Nat) : Request × Nat :=
  (r.JSON sampleMarshal .channel, n + 1)

/-! ## Theorems -/

theorem Request.Header_of_errored (r : Request) (h : r.Error ≠ none) (key value : GoString) :
    r.Header key value = r := by
  simp [Request.Header, h]

theorem Request.Timeout_of_errored (r : Request) (h : r.Error ≠ none) (Value : Duration) :
    r.Timeout Value = r := by
  simp [Request.Timeout, h]

theorem Request.Bytes_of_errored (r : Request) (h : r.Error ≠ none) (Data : List Byte) :
    r.Bytes Data = r := by
  simp [Request.Bytes, h]

theorem Request.JSON_of_errored {α : Type} (Marshal : α → Except GoError (List Byte))
    (r : Request) (h : r.Error ≠ none) (Data : α) : r.JSON Marshal Data = r := by
  simp [Request.JSON, h]

theorem Request.Reader_of_errored (r : Request) (h : r.Error ≠ none)
    (Data : Option structuredhttp.Reader) :
    r.Reader Data = r := by
  simp [Request.Reader, h]

theorem Request.URLEncodedForm_of_errored (Encode : Values → GoString) (r : Request)
    (h : r.Error ≠ none) (Data : Values) : r.URLEncodedForm Encode Data = r := by
  simp [Request.URLEncodedForm, h]

theorem Request.MultipartForm_of_errored (r : Request) (h : r.Error ≠ none)
    (Buffer : List Byte) (ContentType : GoString) : r.MultipartForm Buffer ContentType = r := by
  simp [Request.MultipartForm, h]

theorem Request.Plugin_of_errored {σ : Type} (r : Request) (h : r.Error ≠ none)
    (Function : Request → σ → Request × σ) (w : σ) : r.Plugin Function w = (r, w) := by
  simp [Request.Plugin, h]

theorem Call.apply_of_errored {α σ : Type} (Marshal : α → Except GoError (List Byte))
    (Encode : Values → GoString) (c : Call α σ) (s : Request × σ) (h : s.1.Error ≠ none) :
    c.apply Marshal Encode s = s := by
  cases c with
  | Header key value => simp [Call.apply, Request.Header_of_errored _ h]
  | Timeout Value => simp [Call.apply, Request.Timeout_of_errored _ h]
  | Bytes Data => simp [Call.apply, Request.Bytes_of_errored _ h]
  | JSON Data => simp [Call.apply, Request.JSON_of_errored _ _ h]
  | Reader Data => simp [Call.apply, Request.Reader_of_errored _ h]
  | URLEncodedForm Data => simp [Call.apply, Request.URLEncodedForm_of_errored _ _ h]
  | MultipartForm Buffer ContentType =>
    simp [Call.apply, Request.MultipartForm_of_errored _ h]
  | Plugin Function => simp [Call.apply, Request.Plugin_of_errored _ h]

theorem applyCalls_of_errored {α σ : Type} (Marshal : α → Except GoError (List Byte))
    (Encode : Values → GoString) (calls : List (Call α σ)) (s : Request × σ)
    (h : s.1.Error ≠ none) : applyCalls Marshal Encode calls s = s := by
  induction calls with
  | nil => rfl
  | cons c cs ih =>
    show applyCalls Marshal Encode cs (c.apply Marshal Encode s) = s
    rw [Call.apply_of_errored Marshal Encode c s h]
    exact ih

theorem Request.JSON_of_marshal_error {α : Type} (Marshal : α → Except GoError (List Byte))
    (r : Request) (hr : r.Error = none) (Data : α) (e : GoError)
    (hm : Marshal Data = .error e) : r.JSON Marshal Data = { r with Error := some e } := by
  simp [Request.JSON, hr, hm]

/-- C1: on a request whose Error field is set, each of Header, Timeout, Bytes, JSON, Reader,
URLEncodedForm, MultipartForm and Plugin, whatever its arguments, returns the request with
every field as it was; Plugin does not invoke its function, so the state outside the
request is as it was too. -/
theorem errored_request_ignores_every_call {α σ : Type} (r : Request) (h : r.Error ≠ none)
    (key value : GoString) (Value : Duration) (Data : List Byte)
    (Marshal : α → Except GoError (List Byte)) (v : α) (stream : Option Reader)
    (Encode : Values → GoString) (form : Values) (Buffer : List Byte) (ContentType : GoString)
    (Function : Request → σ → Request × σ) (w : σ) :
    r.Header key value = r ∧ r.Timeout Value = r ∧ r.Bytes Data = r ∧
      r.JSON Marshal v = r ∧ r.Reader stream = r ∧ r.URLEncodedForm Encode form = r ∧
      r.MultipartForm Buffer ContentType = r ∧ r.Plugin Function w = (r, w) :=
  ⟨r.Header_of_errored h key value, r.Timeout_of_errored h Value, r.Bytes_of_errored h Data,
    Request.JSON_of_errored Marshal r h v, r.Reader_of_errored h stream,
    Request.URLEncodedForm_of_errored Encode r h form,
    r.MultipartForm_of_errored h Buffer ContentType, r.Plugin_of_errored h Function w⟩

theorem errored_request_ignores_every_call_witness :
    erroredRequest.Error ≠ none ∧
      (erroredRequest.Header (go "Accept") (go "text/plain") = erroredRequest ∧
        erroredRequest.Timeout 0 = erroredRequest ∧
        erroredRequest.Bytes (go "abc") = erroredRequest ∧
        erroredRequest.JSON sampleMarshal (.stringMap [(go "hello", go "world")])
          = erroredRequest ∧
        erroredRequest.Reader (some (stringsNewReader (go "abc"))) = erroredRequest ∧
        erroredRequest.URLEncodedForm sampleEncode ((∅ : Values).insert (go "a") [go "1"])
          = erroredRequest ∧
        erroredRequest.MultipartForm (go "abc") (go "multipart/form-data; boundary=x")
          = erroredRequest ∧
        erroredRequest.Plugin countingPlugin 0 = (erroredRequest, 0)) :=
  ⟨by decide,
    errored_request_ignores_every_call erroredRequest (by decide) (go "Accept")
      (go "text/plain") 0 (go "abc") sampleMarshal (.stringMap [(go "hello", go "world")])
      (some (stringsNewReader (go "abc"))) sampleEncode ((∅ : Values).insert (go "a") [go "1"])
      (go "abc") (go "multipart/form-data; boundary=x") countingPlugin 0⟩

/-- C2: when JSON fails to serialize on a clean request with error e, then after every finite
chain of later builder calls (Header, Timeout, Bytes, JSON, Reader, URLEncodedForm,
MultipartForm, Plugin, with any arguments, JSON calls that would fail with another error
included) the deferred error is still e. Every prefix of a chain is a chain, so the error is
never cleared or overwritten on the way. -/
theorem deferred_error_survives_later_calls {α σ : Type}
    (Marshal : α → Except GoError (List Byte)) (Encode : Values → GoString) (r : Request)
    (hr : r.Error = none) (v : α) (e : GoError) (hm : Marshal v = .error e)
    (calls : List (Call α σ)) (w : σ) :
    (applyCalls Marshal Encode calls (r.JSON Marshal v, w)).1.Error = some e := by
  have hj : r.JSON Marshal v = { r with Error := some e } :=
    Request.JSON_of_marshal_error Marshal r hr v e hm
  rw [applyCalls_of_errored Marshal Encode calls (r.JSON Marshal v, w) (by simp [hj])]
  simp [hj]

theorem deferred_error_survives_later_calls_witness :
    sampleRequest.Error = none ∧ sampleMarshal .channel = .error sampleError ∧
      (applyCalls sampleMarshal sampleEncode
        [.JSON .function, .Header (go "Accept") (go "text/plain"), .Timeout 0,
          .Bytes (go "abc"), .Plugin countingPlugin,
          .JSON (.stringMap [(go "hello", go "world")])]
        (sampleRequest.JSON sampleMarshal .channel, 0)).1.Error = some sampleError :=
  ⟨by decide, by decide,
    deferred_error_survives_later_calls sampleMarshal sampleEncode sampleRequest (by decide)
      .channel sampleError (by decide) _ 0⟩

/-- C3: on a request whose Error field holds e, Run returns the error e and no Response, and
does nothing to the outside (no request is constructed, no network call is made), whatever
the method, URL, headers, timeout and body are and whatever the transport would answer. -/
theorem run_of_errored_returns_stored_error (net : Net) (r : Request) (e : GoError)
    (h : r.Error = some e) : r.Run net = (.error e, []) := by
  simp [Request.Run, h]

theorem run_of_errored_returns_stored_error_witness :
    erroredRequest.Error = some sampleError ∧
      erroredRequest.Run echoNet = (.error sampleError, []) :=
  ⟨by decide, run_of_errored_returns_stored_error echoNet erroredRequest sampleError (by decide)⟩

theorem Float64.round_le (fl : Float64) (x : ℚ) (n : ℤ) (h1 : -131072 ≤ n) (h2 : n ≤ 131072)
    (hx : x ≤ (n : ℚ) / 128) : fl.round x ≤ (n : ℚ) / 128 := by
  have h := fl.mono x _ hx
  rwa [fl.exact n h1 h2] at h

theorem Float64.le_round (fl : Float64) (x : ℚ) (n : ℤ) (h1 : -131072 ≤ n) (h2 : n ≤ 131072)
    (hx : (n : ℚ) / 128 ≤ x) : (n : ℚ) / 128 ≤ fl.round x := by
  have h := fl.mono _ x hx
  rwa [fl.exact n h1 h2] at h

theorem Response.firstDigitStatus_four_or_five (fl : Float64) (r : Response) :
    (r.FirstDigitStatus fl = 4 ∨ r.FirstDigitStatus fl = 5) ↔
      (400 ≤ r.RawResponse.StatusCode ∧ r.RawResponse.StatusCode ≤ 599) := by
  unfold Response.FirstDigitStatus
  generalize r.RawResponse.StatusCode = c
  rcases lt_or_le c 400 with hlo | hlo
  · -- below 400 the quotient rounds to at most 511/128, which is below 4
    have hc : (c : ℚ) ≤ ((51072 : ℤ) : ℚ) / 128 := by
      have : (c : ℚ) ≤ 399 := by exact_mod_cast (show c ≤ 399 by omega)
      push_cast; linarith
    have h1 := fl.round_le c 51072 (by norm_num) (by norm_num) hc
    have h2 : fl.round c / 100 ≤ ((511 : ℤ) : ℚ) / 128 := by
      push_cast at h1 ⊢; linarith
    have h3 := fl.round_le _ 511 (by norm_num) (by norm_num) h2
    have h4 : ⌊fl.round (fl.round c / 100)⌋ < 4 := by
      rw [Int.floor_lt]; push_cast at h3 ⊢; linarith
    constructor
    · intro h; omega
    · intro h; omega
  · rcases le_or_lt c 599 with hhi | hhi
    · have hc1 : ((51200 : ℤ) : ℚ) / 128 ≤ (c : ℚ) := by
        have : (400 : ℚ) ≤ c := by exact_mod_cast hlo
        push_cast; linarith
      have hc2 : (c : ℚ) ≤ ((76672 : ℤ) : ℚ) / 128 := by
        have : (c : ℚ) ≤ 599 := by exact_mod_cast hhi
        push_cast; linarith
      have h1 := fl.le_round c 51200 (by norm_num) (by norm_num) hc1
      have h2 := fl.round_le c 76672 (by norm_num) (by norm_num) hc2
      have h3 : ((512 : ℤ) : ℚ) / 128 ≤ fl.round c / 100 := by
        push_cast at h1 ⊢; linarith
      have h4 : fl.round c / 100 ≤ ((767 : ℤ) : ℚ) / 128 := by
        push_cast at h2 ⊢; linarith
      have h5 := fl.le_round _ 512 (by norm_num) (by norm_num) h3
      have h6 := fl.round_le _ 767 (by norm_num) (by norm_num) h4
      have h7 : 4 ≤ ⌊fl.round (fl.round c / 100)⌋ := by
        rw [Int.le_floor]; push_cast at h5 ⊢; linarith
      have h8 : ⌊fl.round (fl.round c / 100)⌋ < 6 := by
        rw [Int.floor_lt]; push_cast at h6 ⊢; linarith
      constructor
      · intro _; exact ⟨hlo, hhi⟩
      · intro _; omega
    · have hc : ((76800 : ℤ) : ℚ) / 128 ≤ (c : ℚ) := by
        have : (600 : ℚ) ≤ c := by exact_mod_cast (show 600 ≤ c by omega)
        push_cast; linarith
      have h1 := fl.le_round c 76800 (by norm_num) (by norm_num) hc
      have h2 : ((768 : ℤ) : ℚ) / 128 ≤ fl.round c / 100 := by
        push_cast at h1 ⊢; linarith
      have h3 := fl.le_round _ 768 (by norm_num) (by norm_num) h2
      have h4 : 6 ≤ ⌊fl.round (fl.round c / 100)⌋ := by
        rw [Int.le_floor]; push_cast at h3 ⊢; linarith
      constructor
      · intro h; omega
      · intro h; omega

/-- C4: for every integer status code c, RaiseForStatus returns an error exactly when
400 <= c <= 599, and nil for every other code (1xx, 2xx, 3xx, 0, negative codes and codes
from 600 on), under any monotone rounding of float64 arithmetic that is exact on small
dyadic numbers. -/
theorem raiseForStatus_error_iff (fl : Float64) (r : Response) :
    (r.RaiseForStatus fl ≠ none ↔
        (400 ≤ r.RawResponse.StatusCode ∧ r.RawResponse.StatusCode ≤ 599)) ∧
      (r.RaiseForStatus fl = none ↔
        (r.RawResponse.StatusCode < 400 ∨ 599 < r.RawResponse.StatusCode)) := by
  have key := r.firstDigitStatus_four_or_five fl
  unfold Response.RaiseForStatus
  by_cases h : r.FirstDigitStatus fl = 4 ∨ r.FirstDigitStatus fl = 5
  · have hc := key.1 h
    rw [if_pos h]
    refine ⟨⟨fun _ => hc, fun _ => by simp⟩, ⟨fun h2 => by simp at h2, fun h2 => by omega⟩⟩
  · have hc : ¬ (400 ≤ r.RawResponse.StatusCode ∧ r.RawResponse.StatusCode ≤ 599) :=
      fun h2 => h (key.2 h2)
    rw [if_neg h]
    refine ⟨⟨fun h2 => absurd rfl h2, fun h2 => absurd h2 hc⟩, ⟨fun _ => by omega, fun _ => rfl⟩⟩

/-- C5: whenever RaiseForStatus returns an error, the message of the error is "returned the
status " followed by the decimal rendering of the status code; the message built for status
404 contains "404". -/
theorem raiseForStatus_message (fl : Float64) (r : Response) (e : GoError)
    (h : r.RaiseForStatus fl = some e) :
    e.msg = go "returned the status " ++ Itoa r.RawResponse.StatusCode ∧
      go "404" <:+: go "returned the status " ++ Itoa 404 := by
  unfold Response.RaiseForStatus at h
  split at h
  · have he : e = errorsNew (go "returned the status " ++ Itoa r.RawResponse.StatusCode) := by
      injection h with h; exact h.symm
    subst he
    exact ⟨rfl, by decide⟩
  · cases h

theorem notFound_raises :
    notFound.RaiseForStatus Float64.ideal = some (errorsNew (go "returned the status 404")) := by
  have h := (notFound.firstDigitStatus_four_or_five Float64.ideal).2 ⟨by decide, by decide⟩
  unfold Response.RaiseForStatus
  rw [if_pos h]
  decide

theorem raiseForStatus_message_witness :
    notFound.RaiseForStatus Float64.ideal = some (errorsNew (go "returned the status 404")) ∧
      ((errorsNew (go "returned the status 404")).msg
          = go "returned the status " ++ Itoa notFound.RawResponse.StatusCode ∧
        go "404" <:+: go "returned the status " ++ Itoa 404) :=
  ⟨notFound_raises, raiseForStatus_message Float64.ideal notFound _ notFound_raises⟩

theorem contentType_ne_contentLength : go "Content-Type" ≠ go "Content-Length" := by decide

theorem Request.JSON_of_marshal_ok {α : Type} (Marshal : α → Except GoError (List Byte))
    (r : Request) (hr : r.Error = none) (Data : α) (b : List Byte) (hm : Marshal Data = .ok b) :
    r.JSON Marshal Data =
      { r with
        Headers := ((r.Headers.insert (go "Content-Length") (Itoa b.length)).insert
          (go "Content-Type") (go "application/json")).insert
          (go "Content-Length") (Itoa b.length)
        CurrentReader := some (bytesNewReader b) } := by
  simp [Request.JSON, Request.Bytes, hr, hm]

/-- C6: on a clean request, when the value serializes to the bytes b, after JSON the header
Content-Type is "application/json", the header Content-Length is the decimal rendering of
the length of b, the body source is a reader that yields exactly b and then ends without
error, and the Error field is still unset. -/
theorem json_success_sets_type_length_body {α : Type}
    (Marshal : α → Except GoError (List Byte)) (r : Request) (hr : r.Error = none) (v : α)
    (b : List Byte) (hm : Marshal v = .ok b) :
    (r.JSON Marshal v).Headers.lookup (go "Content-Type") = some (go "application/json") ∧
      (r.JSON Marshal v).Headers.lookup (go "Content-Length") = some (Itoa b.length) ∧
      (r.JSON Marshal v).CurrentReader = some (bytesNewReader b) ∧
      (ReadAll (bytesNewReader b)).1 = (b, none) ∧
      (r.JSON Marshal v).Error = none := by
  rw [Request.JSON_of_marshal_ok Marshal r hr v b hm]
  refine ⟨?_, ?_, rfl, rfl, hr⟩
  · show AList.lookup _ (AList.insert _ _ _) = _
    rw [AList.lookup_insert_ne contentType_ne_contentLength, AList.lookup_insert]
  · show AList.lookup _ (AList.insert _ _ _) = _
    rw [AList.lookup_insert]

theorem json_success_sets_type_length_body_witness :
    sampleRequest.Error = none ∧
      sampleMarshal helloWorld = .ok (go "\x7b\"hello\":\"world\"\x7d") ∧
      ((sampleRequest.JSON sampleMarshal helloWorld).Headers.lookup (go "Content-Type")
          = some (go "application/json") ∧
        (sampleRequest.JSON sampleMarshal helloWorld).Headers.lookup (go "Content-Length")
          = some (Itoa (go "\x7b\"hello\":\"world\"\x7d").length) ∧
        (sampleRequest.JSON sampleMarshal helloWorld).CurrentReader
          = some (bytesNewReader (go "\x7b\"hello\":\"world\"\x7d")) ∧
        (ReadAll (bytesNewReader (go "\x7b\"hello\":\"world\"\x7d"))).1
          = (go "\x7b\"hello\":\"world\"\x7d", none) ∧
        (sampleRequest.JSON sampleMarshal helloWorld).Error = none) :=
  ⟨by decide, by decide,
    json_success_sets_type_length_body sampleMarshal sampleRequest (by decide) helloWorld
      (go "\x7b\"hello\":\"world\"\x7d") (by decide)⟩

/-- C7: on a clean request, when the serialization of the value fails with error e, JSON sets
the deferred error to e and changes nothing else: URL, Method, the whole header map (so
Content-Type and Content-Length too), the timeout and the body source are as before. -/
theorem json_failure_sets_only_error {α : Type} (Marshal : α → Except GoError (List Byte))
    (r : Request) (hr : r.Error = none) (v : α) (e : GoError) (hm : Marshal v = .error e) :
    (r.JSON Marshal v).Error = some e ∧ (r.JSON Marshal v).URL = r.URL ∧
      (r.JSON Marshal v).Method = r.Method ∧ (r.JSON Marshal v).Headers = r.Headers ∧
      (r.JSON Marshal v).CurrentTimeout = r.CurrentTimeout ∧
      (r.JSON Marshal v).CurrentReader = r.CurrentReader := by
  rw [Request.JSON_of_marshal_error Marshal r hr v e hm]
  exact ⟨rfl, rfl, rfl, rfl, rfl, rfl⟩

theorem json_failure_sets_only_error_witness :
    sampleRequest.Error = none ∧ sampleMarshal .channel = .error sampleError ∧
      ((sampleRequest.JSON sampleMarshal .channel).Error = some sampleError ∧
        (sampleRequest.JSON sampleMarshal .channel).URL = sampleRequest.URL ∧
        (sampleRequest.JSON sampleMarshal .channel).Method = sampleRequest.Method ∧
        (sampleRequest.JSON sampleMarshal .channel).Headers = sampleRequest.Headers ∧
        (sampleRequest.JSON sampleMarshal .channel).CurrentTimeout
          = sampleRequest.CurrentTimeout ∧
        (sampleRequest.JSON sampleMarshal .channel).CurrentReader
          = sampleRequest.CurrentReader) :=
  ⟨by decide, by decide,
    json_failure_sets_only_error sampleMarshal sampleRequest (by decide) .channel sampleError
      (by decide)⟩

/-- C9, as stated, fails: the body "x" is rejected by the decoder, and after JSON has returned
the decode error, Bytes on the same wrapper returns the empty byte sequence and Text the
empty string, not "x". -/
theorem json_decode_failure_counterexample :
    garbageResponse.RawResponse.Body.data = go "x" ∧
      (garbageResponse.JSON sampleUnmarshal).1 = .error sampleSyntaxError ∧
      (garbageResponse.JSON sampleUnmarshal).2.Bytes.1 = ([], none) ∧
      (garbageResponse.JSON sampleUnmarshal).2.Text.1 = .ok [] ∧
      ([] : List Byte) ≠ go "x" := by
  decide

/-- C9, amended: a decode failure in JSON leaves the wrapper usable, but JSON has consumed the
body stream and nothing is cached. For every response whose body b is read without error
and is rejected by the decoder with error e, JSON returns e, and afterwards Bytes on the
same wrapper returns the empty byte sequence without error and Text returns the empty
string without error. -/
theorem json_decode_failure_leaves_empty_stream {β : Type}
    (Unmarshal : List Byte → Except GoError β) (r : Response) (e : GoError)
    (hread : r.RawResponse.Body.err = none)
    (hdec : Unmarshal r.RawResponse.Body.data = .error e) :
    (r.JSON Unmarshal).1 = .error e ∧ (r.JSON Unmarshal).2.Bytes.1 = ([], none) ∧
      (r.JSON Unmarshal).2.Text.1 = .ok [] := by
  have h1 : r.JSON Unmarshal
      = (.error e, { r with RawResponse := { r.RawResponse with Body := ⟨[], none, []⟩ } }) := by
    simp [Response.JSON, Response.Bytes, ReadAll, hread, hdec]
  rw [h1]
  simp [Response.Bytes, Response.Text, ReadAll]

theorem json_decode_failure_leaves_empty_stream_witness :
    garbageResponse.RawResponse.Body.err = none ∧
      sampleUnmarshal garbageResponse.RawResponse.Body.data = .error sampleSyntaxError ∧
      ((garbageResponse.JSON sampleUnmarshal).1 = .error sampleSyntaxError ∧
        (garbageResponse.JSON sampleUnmarshal).2.Bytes.1 = ([], none) ∧
        (garbageResponse.JSON sampleUnmarshal).2.Text.1 = .ok []) :=
  ⟨by decide, by decide,
    json_decode_failure_leaves_empty_stream sampleUnmarshal garbageResponse sampleSyntaxError
      (by decide) (by decide)⟩

theorem Request.Bytes_of_clean (r : Request) (hr : r.Error = none) (Data : List Byte) :
    r.Bytes Data =
      { r with
        Headers := r.Headers.insert (go "Content-Length") (Itoa Data.length)
        CurrentReader := some (bytesNewReader Data) } := by
  simp [Request.Bytes, hr]

/-- C11: on a clean request, after Bytes(d) the body source is a reader that yields exactly d,
the header Content-Length is the decimal rendering of len(d), every other header k has the
value it had, and the URL, the method, the timeout and the unset Error are unchanged. -/
theorem bytes_sets_body_and_length_only (r : Request) (hr : r.Error = none) (d : List Byte)
    (k : GoString) (hk : k ≠ go "Content-Length") :
    (r.Bytes d).CurrentReader = some (bytesNewReader d) ∧
      (ReadAll (bytesNewReader d)).1 = (d, none) ∧
      (r.Bytes d).Headers.lookup (go "Content-Length") = some (Itoa d.length) ∧
      (r.Bytes d).Headers.lookup k = r.Headers.lookup k ∧
      (r.Bytes d).URL = r.URL ∧ (r.Bytes d).Method = r.Method ∧
      (r.Bytes d).CurrentTimeout = r.CurrentTimeout ∧ (r.Bytes d).Error = none := by
  rw [Request.Bytes_of_clean r hr d]
  refine ⟨rfl, rfl, ?_, ?_, rfl, rfl, rfl, hr⟩
  · show AList.lookup _ (AList.insert _ _ _) = _
    rw [AList.lookup_insert]
  · show AList.lookup _ (AList.insert _ _ _) = _
    rw [AList.lookup_insert_ne hk]

theorem bytes_sets_body_and_length_only_witness :
    sampleRequest.Error = none ∧ go "Accept" ≠ go "Content-Length" ∧
      ((sampleRequest.Bytes (go "abc")).CurrentReader = some (bytesNewReader (go "abc")) ∧
        (ReadAll (bytesNewReader (go "abc"))).1 = (go "abc", none) ∧
        (sampleRequest.Bytes (go "abc")).Headers.lookup (go "Content-Length")
          = some (Itoa (go "abc").length) ∧
        (sampleRequest.Bytes (go "abc")).Headers.lookup (go "Accept")
          = sampleRequest.Headers.lookup (go "Accept") ∧
        (sampleRequest.Bytes (go "abc")).URL = sampleRequest.URL ∧
        (sampleRequest.Bytes (go "abc")).Method = sampleRequest.Method ∧
        (sampleRequest.Bytes (go "abc")).CurrentTimeout = sampleRequest.CurrentTimeout ∧
        (sampleRequest.Bytes (go "abc")).Error = none) :=
  ⟨by decide, by decide,
    bytes_sets_body_and_length_only sampleRequest (by decide) (go "abc") (go "Accept")
      (by decide)⟩

theorem Request.URLEncodedForm_of_clean (Encode : Values → GoString) (r : Request)
    (hr : r.Error = none) (Data : Values) :
    r.URLEncodedForm Encode Data =
      { r with
        Headers := (r.Headers.insert (go "Content-Type")
          (go "application/x-www-form-urlencoded")).insert
          (go "Content-Length") (Itoa (Encode Data).length)
        CurrentReader := some (stringsNewReader (Encode Data)) } := by
  simp [Request.URLEncodedForm, hr]

/-- C12: on a clean request, for form pairs whose URL-encoding is e, after URLEncodedForm the
header Content-Type is "application/x-www-form-urlencoded", the header Content-Length is
the decimal rendering of the byte length of e, and the body source is a reader that yields
exactly e. -/
theorem urlEncodedForm_sets_type_length_body (Encode : Values → GoString) (r : Request)
    (hr : r.Error = none) (pairs : Values) (e : GoString) (he : Encode pairs = e) :
    (r.URLEncodedForm Encode pairs).Headers.lookup (go "Content-Type")
        = some (go "application/x-www-form-urlencoded") ∧
      (r.URLEncodedForm Encode pairs).Headers.lookup (go "Content-Length")
        = some (Itoa e.length) ∧
      (r.URLEncodedForm Encode pairs).CurrentReader = some (stringsNewReader e) ∧
      (ReadAll (stringsNewReader e)).1 = (e, none) := by
  rw [Request.URLEncodedForm_of_clean Encode r hr pairs, he]
  refine ⟨?_, ?_, rfl, rfl⟩
  · show AList.lookup _ (AList.insert _ _ _) = _
    rw [AList.lookup_insert_ne contentType_ne_contentLength, AList.lookup_insert]
  · show AList.lookup _ (AList.insert _ _ _) = _
    rw [AList.lookup_insert]

theorem urlEncodedForm_sets_type_length_body_witness :
    sampleRequest.Error = none ∧
      sampleEncode ((∅ : Values).insert (go "a") [go "1", go "2"]) = go "a=1&a=2" ∧
      ((sampleRequest.URLEncodedForm sampleEncode
            ((∅ : Values).insert (go "a") [go "1", go "2"])).Headers.lookup (go "Content-Type")
          = some (go "application/x-www-form-urlencoded") ∧
        (sampleRequest.URLEncodedForm sampleEncode
            ((∅ : Values).insert (go "a") [go "1", go "2"])).Headers.lookup
            (go "Content-Length")
          = some (Itoa (go "a=1&a=2").length) ∧
        (sampleRequest.URLEncodedForm sampleEncode
            ((∅ : Values).insert (go "a") [go "1", go "2"])).CurrentReader
          = some (stringsNewReader (go "a=1&a=2")) ∧
        (ReadAll (stringsNewReader (go "a=1&a=2"))).1 = (go "a=1&a=2", none)) :=
  ⟨by decide, by decide,
    urlEncodedForm_sets_type_length_body sampleEncode sampleRequest (by decide)
      ((∅ : Values).insert (go "a") [go "1", go "2"]) (go "a=1&a=2") (by decide)⟩

theorem Request.Header_of_clean (r : Request) (hr : r.Error = none) (key value : GoString) :
    r.Header key value = { r with Headers := r.Headers.insert key value } := by
  simp [Request.Header, hr]

/-- C13: on a clean request, header writes are last-write-wins and idempotent per key:
Header(k, v1) then Header(k, v2) leaves the state of Header(k, v2) alone, Header(k, v) twice
leaves the state of Header(k, v) once, after Header(k, v) the lookup of k is v, and every
other key k2 has the value it had. -/
theorem header_last_write_wins (r : Request) (hr : r.Error = none)
    (k v v1 v2 k2 : GoString) (hk : k2 ≠ k) :
    (r.Header k v1).Header k v2 = r.Header k v2 ∧
      (r.Header k v).Header k v = r.Header k v ∧
      (r.Header k v).Headers.lookup k = some v ∧
      (r.Header k v).Headers.lookup k2 = r.Headers.lookup k2 := by
  have again : ∀ a b : GoString, (r.Header k a).Header k b = r.Header k b := by
    intro a b
    rw [Request.Header_of_clean r hr k a, Request.Header_of_clean r hr k b,
      Request.Header_of_clean { r with Headers := r.Headers.insert k a } hr k b]
    show ({ r with Headers := (r.Headers.insert k a).insert k b } : Request) = _
    rw [AList.insert_insert]
  refine ⟨again v1 v2, again v v, ?_, ?_⟩
  · rw [Request.Header_of_clean r hr k v]
    show AList.lookup _ (AList.insert _ _ _) = _
    rw [AList.lookup_insert]
  · rw [Request.Header_of_clean r hr k v]
    show AList.lookup _ (AList.insert _ _ _) = _
    rw [AList.lookup_insert_ne hk]

theorem header_last_write_wins_witness :
    sampleRequest.Error = none ∧ go "Accept" ≠ go "X-Token" ∧
      ((sampleRequest.Header (go "X-Token") (go "one")).Header (go "X-Token") (go "two")
          = sampleRequest.Header (go "X-Token") (go "two") ∧
        (sampleRequest.Header (go "X-Token") (go "v")).Header (go "X-Token") (go "v")
          = sampleRequest.Header (go "X-Token") (go "v") ∧
        (sampleRequest.Header (go "X-Token") (go "v")).Headers.lookup (go "X-Token")
          = some (go "v") ∧
        (sampleRequest.Header (go "X-Token") (go "v")).Headers.lookup (go "Accept")
          = sampleRequest.Headers.lookup (go "Accept")) :=
  ⟨by decide, by decide,
    header_last_write_wins sampleRequest (by decide) (go "X-Token") (go "v") (go "one")
      (go "two") (go "Accept") (by decide)⟩

theorem Request.Timeout_of_clean (r : Request) (hr : r.Error = none) (Value : Duration) :
    r.Timeout Value = { r with CurrentTimeout := some Value } := by
  simp [Request.Timeout, hr]

theorem Request.Reader_of_clean (r : Request) (hr : r.Error = none)
    (Data : Option structuredhttp.Reader) : r.Reader Data = { r with CurrentReader := Data } := by
  simp [Request.Reader, hr]

theorem Request.MultipartForm_of_clean (r : Request) (hr : r.Error = none)
    (Buffer : List Byte) (ContentType : GoString) :
    r.MultipartForm Buffer ContentType =
      { r with
        Headers := r.Headers.insert (go "Content-Type") ContentType
        CurrentReader := some (bufferReader Buffer) } := by
  simp [Request.MultipartForm, hr]

theorem Request.Plugin_of_clean {σ : Type} (r : Request) (hr : r.Error = none)
    (Function : Request → σ → Request × σ) (w : σ) : r.Plugin Function w = Function r w := by
  simp [Request.Plugin, hr]

/-- C14, as stated, fails for Plugin: on the clean sample request, a plugin whose function calls
JSON with a channel leaves the Error field set. -/
theorem plugin_sets_error_counterexample :
    sampleRequest.Error = none ∧
      (sampleRequest.Plugin failingPlugin 0).1.Error = some sampleError := by
  decide

/-- C14, amended: on a clean request each of Header, Timeout, Bytes, Reader, URLEncodedForm and
MultipartForm, with any arguments, leaves the Error field unset; Plugin sets no error of its
own, and after Plugin(f) the Error field is the one f leaves. -/
theorem only_json_or_plugin_function_sets_error {σ : Type} (r : Request) (hr : r.Error = none)
    (key value : GoString) (Value : Duration) (Data : List Byte) (stream : Option Reader)
    (Encode : Values → GoString) (form : Values) (Buffer : List Byte) (ContentType : GoString)
    (Function : Request → σ → Request × σ) (w : σ) :
    (r.Header key value).Error = none ∧ (r.Timeout Value).Error = none ∧
      (r.Bytes Data).Error = none ∧ (r.Reader stream).Error = none ∧
      (r.URLEncodedForm Encode form).Error = none ∧
      (r.MultipartForm Buffer ContentType).Error = none ∧
      (r.Plugin Function w).1.Error = (Function r w).1.Error := by
  rw [Request.Header_of_clean r hr, Request.Timeout_of_clean r hr, Request.Bytes_of_clean r hr,
    Request.Reader_of_clean r hr, Request.URLEncodedForm_of_clean Encode r hr,
    Request.MultipartForm_of_clean r hr, Request.Plugin_of_clean r hr]
  exact ⟨hr, hr, hr, hr, hr, hr, rfl⟩

theorem only_json_or_plugin_function_sets_error_witness :
    sampleRequest.Error = none ∧
      ((sampleRequest.Header (go "Accept") (go "text/plain")).Error = none ∧
        (sampleRequest.Timeout 0).Error = none ∧
        (sampleRequest.Bytes (go "abc")).Error = none ∧
        (sampleRequest.Reader (some (stringsNewReader (go "abc")))).Error = none ∧
        (sampleRequest.URLEncodedForm sampleEncode
          ((∅ : Values).insert (go "a") [go "1"])).Error = none ∧
        (sampleRequest.MultipartForm (go "abc") (go "multipart/form-data; boundary=x")).Error
          = none ∧
        (sampleRequest.Plugin failingPlugin 0).1.Error
          = (failingPlugin sampleRequest 0).1.Error) :=
  ⟨by decide,
    only_json_or_plugin_function_sets_error sampleRequest (by decide) (go "Accept")
      (go "text/plain") 0 (go "abc") (some (stringsNewReader (go "abc"))) sampleEncode
      ((∅ : Values).insert (go "a") [go "1"]) (go "abc")
      (go "multipart/form-data; boundary=x") failingPlugin 0⟩

theorem Request.bodySetter_sets_source {α : Type} (Marshal : α → Except GoError (List Byte))
    (Encode : Values → GoString) (r1 : Request) (h1 : r1.Error = none) (d : List Byte) (v : α)
    (b : List Byte) (hv : Marshal v = .ok b) (s : Option structuredhttp.Reader) (form : Values)
    (buf : List Byte) (ct : GoString) :
    (r1.Bytes d).CurrentReader = some (bytesNewReader d) ∧
      (r1.JSON Marshal v).CurrentReader = some (bytesNewReader b) ∧
      (r1.Reader s).CurrentReader = s ∧
      (r1.URLEncodedForm Encode form).CurrentReader = some (stringsNewReader (Encode form)) ∧
      (r1.MultipartForm buf ct).CurrentReader = some (bufferReader buf) := by
  rw [Request.Bytes_of_clean r1 h1, Request.JSON_of_marshal_ok Marshal r1 h1 v b hv,
    Request.Reader_of_clean r1 h1, Request.URLEncodedForm_of_clean Encode r1 h1,
    Request.MultipartForm_of_clean r1 h1]
  exact ⟨rfl, rfl, rfl, rfl, rfl⟩

/-- C15: body sources are last-set-wins with no merge. On a clean request r, let r1 be r
itself or r after one body-setting call (Bytes, JSON with a value that serializes, Reader,
URLEncodedForm or MultipartForm, with any arguments). Then after a second body-setting call
on r1 the body source is the one built from the arguments of that second call alone: the
reader over d after Bytes(d), the reader over the serialized bytes after JSON, the stream
itself after Reader, the reader over the encoded form after URLEncodedForm, the buffer
after MultipartForm; so it is the same after either first call as on r itself. -/
theorem body_source_last_set_wins {α : Type} (Marshal : α → Except GoError (List Byte))
    (Encode : Values → GoString) (r : Request) (hr : r.Error = none)
    (d1 : List Byte) (v1 : α) (b1 : List Byte) (hv1 : Marshal v1 = .ok b1)
    (s1 : Option Reader) (form1 : Values) (buf1 : List Byte) (ct1 : GoString)
    (d : List Byte) (v : α) (b : List Byte) (hv : Marshal v = .ok b)
    (s : Option Reader) (form : Values) (buf : List Byte) (ct : GoString)
    (r1 : Request)
    (hfirst : r1 ∈ [r, r.Bytes d1, r.JSON Marshal v1, r.Reader s1,
      r.URLEncodedForm Encode form1, r.MultipartForm buf1 ct1]) :
    (r1.Bytes d).CurrentReader = some (bytesNewReader d) ∧
      (r1.JSON Marshal v).CurrentReader = some (bytesNewReader b) ∧
      (r1.Reader s).CurrentReader = s ∧
      (r1.URLEncodedForm Encode form).CurrentReader = some (stringsNewReader (Encode form)) ∧
      (r1.MultipartForm buf ct).CurrentReader = some (bufferReader buf) := by
  have h1 : r1.Error = none := by
    simp only [List.mem_cons, List.mem_singleton, List.not_mem_nil, or_false] at hfirst
    rcases hfirst with h | h | h | h | h | h
    · rw [h]; exact hr
    · rw [h, Request.Bytes_of_clean r hr]; exact hr
    · rw [h, Request.JSON_of_marshal_ok Marshal r hr v1 b1 hv1]; exact hr
    · rw [h, Request.Reader_of_clean r hr]; exact hr
    · rw [h, Request.URLEncodedForm_of_clean Encode r hr]; exact hr
    · rw [h, Request.MultipartForm_of_clean r hr]; exact hr
  exact Request.bodySetter_sets_source Marshal Encode r1 h1 d v b hv s form buf ct

theorem body_source_last_set_wins_witness :
    sampleRequest.Error = none ∧
      sampleMarshal helloWorld = .ok (go "\x7b\"hello\":\"world\"\x7d") ∧
      sampleRequest.Bytes (go "first") ∈
        [sampleRequest, sampleRequest.Bytes (go "first"),
          sampleRequest.JSON sampleMarshal helloWorld,
          sampleRequest.Reader (some (stringsNewReader (go "one"))),
          sampleRequest.URLEncodedForm sampleEncode ((∅ : Values).insert (go "a") [go "1"]),
          sampleRequest.MultipartForm (go "--x--") (go "multipart/form-data; boundary=x")] ∧
      (((sampleRequest.Bytes (go "first")).Bytes (go "abc")).CurrentReader
          = some (bytesNewReader (go "abc")) ∧
        ((sampleRequest.Bytes (go "first")).JSON sampleMarshal helloWorld).CurrentReader
          = some (bytesNewReader (go "\x7b\"hello\":\"world\"\x7d")) ∧
        ((sampleRequest.Bytes (go "first")).Reader
            (some (stringsNewReader (go "two")))).CurrentReader
          = some (stringsNewReader (go "two")) ∧
        ((sampleRequest.Bytes (go "first")).URLEncodedForm sampleEncode
            ((∅ : Values).insert (go "b") [go "2"])).CurrentReader
          = some (stringsNewReader (sampleEncode ((∅ : Values).insert (go "b") [go "2"]))) ∧
        ((sampleRequest.Bytes (go "first")).MultipartForm (go "--y--")
            (go "multipart/form-data; boundary=y")).CurrentReader
          = some (bufferReader (go "--y--"))) :=
  ⟨by decide, by decide, List.mem_cons_of_mem _ (List.mem_cons_self _ _),
    body_source_last_set_wins sampleMarshal sampleEncode sampleRequest (by decide)
      (go "first") helloWorld (go "\x7b\"hello\":\"world\"\x7d") (by decide)
      (some (stringsNewReader (go "one"))) ((∅ : Values).insert (go "a") [go "1"])
      (go "--x--") (go "multipart/form-data; boundary=x")
      (go "abc") helloWorld (go "\x7b\"hello\":\"world\"\x7d") (by decide)
      (some (stringsNewReader (go "two"))) ((∅ : Values).insert (go "b") [go "2"])
      (go "--y--") (go "multipart/form-data; boundary=y")
      (sampleRequest.Bytes (go "first")) (List.mem_cons_of_mem _ (List.mem_cons_self _ _))⟩

/-- C17: on a clean request Plugin(f) runs f once on that request, so the state afterwards,
inside and outside the request, is the state f leaves; later calls of the chain start from
that state; and when the function leaves the request with the error e, the later calls
change nothing and Run returns e without doing anything to the outside. -/
theorem plugin_runs_function_once {α σ : Type} (Marshal : α → Except GoError (List Byte))
    (Encode : Values → GoString) (net : Net) (r : Request) (hr : r.Error = none)
    (f g : Request → σ → Request × σ) (w : σ) (e : GoError) (hg : (g r w).1.Error = some e)
    (calls : List (Call α σ)) :
    r.Plugin f w = f r w ∧
      applyCalls Marshal Encode (.Plugin f :: calls) (r, w)
        = applyCalls Marshal Encode calls (f r w) ∧
      applyCalls Marshal Encode (.Plugin g :: calls) (r, w) = g r w ∧
      (applyCalls Marshal Encode (.Plugin g :: calls) (r, w)).1.Run net = (.error e, []) := by
  have step : ∀ h : Request → σ → Request × σ,
      applyCalls Marshal Encode (.Plugin h :: calls) (r, w)
        = applyCalls Marshal Encode calls (h r w) := by
    intro h
    show applyCalls Marshal Encode calls ((Call.Plugin h).apply Marshal Encode (r, w)) = _
    rw [show (Call.Plugin h : Call α σ).apply Marshal Encode (r, w) = r.Plugin h w from rfl,
      Request.Plugin_of_clean r hr h w]
  have stuck : applyCalls Marshal Encode (.Plugin g :: calls) (r, w) = g r w := by
    rw [step g, applyCalls_of_errored Marshal Encode calls (g r w) (by simp [hg])]
  refine ⟨Request.Plugin_of_clean r hr f w, step f, stuck, ?_⟩
  rw [stuck]
  simp [Request.Run, hg]

theorem plugin_runs_function_once_witness :
    sampleRequest.Error = none ∧ (failingPlugin sampleRequest 0).1.Error = some sampleError ∧
      (sampleRequest.Plugin countingPlugin 0 = countingPlugin sampleRequest 0 ∧
        applyCalls sampleMarshal sampleEncode
            [.Plugin countingPlugin, .Header (go "Accept") (go "text/plain"), .Timeout 7]
            (sampleRequest, 0)
          = applyCalls sampleMarshal sampleEncode
            [.Header (go "Accept") (go "text/plain"), .Timeout 7]
            (countingPlugin sampleRequest 0) ∧
        applyCalls sampleMarshal sampleEncode
            [.Plugin failingPlugin, .Header (go "Accept") (go "text/plain"), .Timeout 7]
            (sampleRequest, 0)
          = failingPlugin sampleRequest 0 ∧
        (applyCalls sampleMarshal sampleEncode
            [.Plugin failingPlugin, .Header (go "Accept") (go "text/plain"), .Timeout 7]
            (sampleRequest, 0)).1.Run echoNet = (.error sampleError, [])) ∧
      (sampleRequest.Plugin countingPlugin 0).2 = 1 :=
  ⟨by decide, by decide,
    plugin_runs_function_once sampleMarshal sampleEncode echoNet sampleRequest (by decide)
      countingPlugin failingPlugin 0 sampleError (by decide)
      [.Header (go "Accept") (go "text/plain"), .Timeout 7],
    by decide⟩

/-- C18: Reader and MultipartForm leave the header Content-Length as it is. On a clean request,
after Bytes(d) followed by Reader(s) the body source is s, after Bytes(d) followed by
MultipartForm(buf, ct) the body source is buf, and in both cases the header Content-Length
is still the decimal rendering of len(d), whatever the new body is. -/
theorem reader_and_multipart_keep_content_length (r : Request) (hr : r.Error = none)
    (d : List Byte) (s : Option Reader) (buf : List Byte) (ct : GoString) :
    ((r.Bytes d).Reader s).CurrentReader = s ∧
      ((r.Bytes d).Reader s).Headers.lookup (go "Content-Length") = some (Itoa d.length) ∧
      ((r.Bytes d).MultipartForm buf ct).CurrentReader = some (bufferReader buf) ∧
      ((r.Bytes d).MultipartForm buf ct).Headers.lookup (go "Content-Length")
        = some (Itoa d.length) ∧
      (r.Reader s).Headers.lookup (go "Content-Length")
        = r.Headers.lookup (go "Content-Length") ∧
      (r.MultipartForm buf ct).Headers.lookup (go "Content-Length")
        = r.Headers.lookup (go "Content-Length") := by
  have hb : (r.Bytes d).Error = none := by rw [Request.Bytes_of_clean r hr d]; exact hr
  have hl : (r.Bytes d).Headers.lookup (go "Content-Length") = some (Itoa d.length) := by
    rw [Request.Bytes_of_clean r hr d]
    show AList.lookup _ (AList.insert _ _ _) = _
    rw [AList.lookup_insert]
  have keep : ∀ r0 : Request, r0.Error = none →
      (r0.MultipartForm buf ct).Headers.lookup (go "Content-Length")
        = r0.Headers.lookup (go "Content-Length") := by
    intro r0 h0
    rw [Request.MultipartForm_of_clean r0 h0]
    show AList.lookup _ (AList.insert _ _ _) = _
    rw [AList.lookup_insert_ne (Ne.symm contentType_ne_contentLength)]
  refine ⟨?_, ?_, ?_, ?_, ?_, keep r hr⟩
  · rw [Request.Reader_of_clean _ hb]
  · rw [Request.Reader_of_clean _ hb]; exact hl
  · rw [Request.MultipartForm_of_clean _ hb]
  · rw [keep _ hb]; exact hl
  · rw [Request.Reader_of_clean r hr]

theorem reader_and_multipart_keep_content_length_witness :
    sampleRequest.Error = none ∧
      (((sampleRequest.Bytes (go "abc")).Reader
            (some (stringsNewReader (go "a longer stream")))).CurrentReader
          = some (stringsNewReader (go "a longer stream")) ∧
        ((sampleRequest.Bytes (go "abc")).Reader
            (some (stringsNewReader (go "a longer stream")))).Headers.lookup
            (go "Content-Length")
          = some (Itoa (go "abc").length) ∧
        ((sampleRequest.Bytes (go "abc")).MultipartForm (go "--x--")
            (go "multipart/form-data; boundary=x")).CurrentReader
          = some (bufferReader (go "--x--")) ∧
        ((sampleRequest.Bytes (go "abc")).MultipartForm (go "--x--")
            (go "multipart/form-data; boundary=x")).Headers.lookup (go "Content-Length")
          = some (Itoa (go "abc").length) ∧
        (sampleRequest.Reader (some (stringsNewReader (go "a longer stream")))).Headers.lookup
            (go "Content-Length")
          = sampleRequest.Headers.lookup (go "Content-Length") ∧
        (sampleRequest.MultipartForm (go "--x--")
            (go "multipart/form-data; boundary=x")).Headers.lookup (go "Content-Length")
          = sampleRequest.Headers.lookup (go "Content-Length")) :=
  ⟨by decide,
    reader_and_multipart_keep_content_length sampleRequest (by decide) (go "abc")
      (some (stringsNewReader (go "a longer stream"))) (go "--x--")
      (go "multipart/form-data; boundary=x")⟩

end structuredhttp
